import Mathlib

/-!
Shallow embedding of the Movie-Recommendation-System repository
(`src/app.py`, the Flask entry point, and `src/application.py`, the
Streamlit entry point).

Similarity scores are real-valued in the source (numpy floats); they are
modelled as rationals, which carries the complete ordering behaviour the
ranking logic depends on.  The catalog (`movies.pkl` loaded into the
pandas DataFrame `movies_tag`) is modelled as a list of records in row
order; the similarity matrix as a list of rows.  Network interaction in
`fetch_poster` is modelled by an abstract response outcome passed in as
data.
-/

namespace MovieRec

/-- Similarity scores (numpy floats in the source) modelled as rationals. -/
abbrev Score := ℚ

/-- One row of the `movies_tag` DataFrame: a `title` column and a
`movie_id` column. -/
structure CatalogEntry where
  title : String
  movie_id : Int
deriving DecidableEq

/-- The comparison used by `sorted(..., key=lambda x: x[1], reverse=True)`
in `app.py` line 130 and `application.py` line 26: pairs are compared by
their score component, descending.  Python's `sorted` is stable, which the
insertion sort below reproduces: elements with equal scores keep their
original relative order. -/
def scoreDesc (a b : Nat × Score) : Prop := b.2 ≤ a.2

instance : DecidableRel scoreDesc := fun a b =>
  inferInstanceAs (Decidable (b.2 ≤ a.2))

instance : IsTotal (Nat × Score) scoreDesc :=
  ⟨fun a b => le_total b.2 a.2⟩

instance : IsTrans (Nat × Score) scoreDesc :=
  ⟨fun _ _ _ h1 h2 => le_trans h2 h1⟩

/-- The strict order actually produced on an enumerated row by the stable
descending sort: score strictly descending, with equal scores ordered by
ascending index (the relative order the pairs had in `enumerate`). -/
def scoreDescIdxAsc (a b : Nat × Score) : Prop :=
  b.2 < a.2 ∨ (a.2 = b.2 ∧ a.1 < b.1)

/-- The ranking step shared by both entry points (`app.py` line 128-130,
`application.py` line 24-26):

`sorted(list(enumerate(distances)), reverse=True, key=lambda x: x[1])[1:k+1]`

where `distances = similarity[position]`.  The Python slice `[1:k+1]`
drops the first element of the sorted row and keeps the next `k`. -/
def top_k (similarity : List (List Score)) (position k : Nat) :
    List (Nat × Score) :=
  let distances := similarity.getD position []
  (((distances.enum).insertionSort scoreDesc).drop 1).take k

/-- Outcome of the TMDB lookup chain in `fetch_poster`:
`requests.get` + `raise_for_status()` + `response.json()`.  `err` covers a
network error, a timeout, a non-success HTTP status and a malformed body
(all of which raise and land in the `except` branch of `app.py`);
`ok path` is a decoded JSON body whose `poster_path` field is `path`
(`none` when the field is absent). -/
inductive NetResult where
  | err : NetResult
  | ok : Option String → NetResult

/-- The fixed placeholder URL of `app.py` lines 109 and 112. -/
def placeholder_url : String :=
  "https://via.placeholder.com/500x750/333/fff?text=No+Poster"

/-- The image-host URL prepended to `poster_path` (`app.py` line 107). -/
def image_host : String := "https://image.tmdb.org/t/p/w500/"

/-- `fetch_poster` of `app.py` lines 97-112, as a function of the network
outcome.  `data.get('poster_path')` is a Python truthiness test, so both a
missing and an empty `poster_path` take the placeholder branch. -/
def fetch_poster (response : NetResult) : String :=
  match response with
  | NetResult.err => placeholder_url
  | NetResult.ok none => placeholder_url
  | NetResult.ok (some p) =>
      if p = "" then placeholder_url else image_host ++ p

/-- `fetch_poster` of `application.py` lines 6-10, as a function of the
network outcome.  Unlike the Flask version there is no `try/except` and
no timeout: a network error, a non-success status or a malformed body
raises to the caller (`Except.error`); a decoded body whose
`poster_path` is falsy (absent or empty) yields `None` — not the
placeholder. -/
def fetch_poster_streamlit (response : NetResult) :
    Except Unit (Option String) :=
  match response with
  | NetResult.err => Except.error ()
  | NetResult.ok none => Except.ok none
  | NetResult.ok (some p) =>
      if p = "" then Except.ok none
      else Except.ok (some (image_host ++ p))

/-- Total number of matrix entries: `similarity.size` of the numpy array
(`app.py` lines 118, 173, 205). -/
def matrix_size (similarity : List (List Score)) : Nat :=
  (similarity.map List.length).sum

/-- Title lookup of `app.py` lines 123-128 (and `application.py` line 24):
`movies_tag[movies_tag['title'] == movie]` filters the rows keeping their
original positional index, and `.index[0]` reads the first surviving
index.  `none` corresponds to `matches.empty`. -/
def find_position (movies_tag : List CatalogEntry) (movie : String) :
    Option Nat :=
  (((movies_tag.enum).filter (fun pe => pe.2.title == movie)).head?).map
    Prod.fst

/-- One recommendation record as assembled in `app.py` lines 141-146. -/
structure Recommendation where
  title : String
  similarity_score : Score
  poster_url : String
  movie_id : Int
deriving DecidableEq

/-- Body of the per-candidate loop of `app.py` lines 133-149.
`movies_tag.iloc[i]` raises `IndexError` when `i` is not a valid row
position; the surrounding `try/except` turns that into skipping the item
(`continue`), modelled here by `none`.  On a valid position the item is
assembled, with its poster resolved through `fetch_poster` (which is
total, so poster resolution never makes the item fail). -/
def process_item (movies_tag : List CatalogEntry)
    (poster_api : Int → NetResult) (pair : Nat × Score) :
    Option Recommendation :=
  match movies_tag.get? pair.1 with
  | none => none
  | some e =>
      some ⟨e.title, pair.2, fetch_poster (poster_api e.movie_id),
        e.movie_id⟩

/-- `recommend` of `app.py` lines 114-154: the models-loaded guard
(line 118), the title lookup with empty-match early return (lines
123-126), the ranking step (lines 128-130) and the best-effort assembly
loop (lines 132-151). -/
def recommend (movies_tag : List CatalogEntry)
    (similarity : List (List Score)) (poster_api : Int → NetResult)
    (movie : String) (num_recommendations : Nat) : List Recommendation :=
  if movies_tag.isEmpty || matrix_size similarity == 0 then []
  else
    match find_position movies_tag movie with
    | none => []
    | some movie_index =>
        (top_k similarity movie_index num_recommendations).filterMap
          (process_item movies_tag poster_api)

/-- The candidate-selection prefix of `recommend` in `app.py` (lines
114-130): everything up to and including the ranking step, before the
per-item decoration loop. -/
def recommend_app_pairs (movies_tag : List CatalogEntry)
    (similarity : List (List Score)) (movie : String)
    (num_recommendations : Nat) : List (Nat × Score) :=
  if movies_tag.isEmpty || matrix_size similarity == 0 then []
  else
    match find_position movies_tag movie with
    | none => []
    | some movie_index => top_k similarity movie_index num_recommendations

/-- The candidate-selection prefix of `recommend` in `application.py`
(lines 23-26).  There is no guard: `.index[0]` on an empty match raises
`IndexError`, modelled by `none`. -/
def recommend_streamlit_pairs (movies_tag : List CatalogEntry)
    (similarity : List (List Score)) (movie : String)
    (num_recommendations : Nat) : Option (List (Nat × Score)) :=
  match find_position movies_tag movie with
  | none => none
  | some movie_index =>
      some (top_k similarity movie_index num_recommendations)

/-- JSON payload shape of the `/get_recommendations` endpoint. -/
structure ApiResponse where
  success : Bool
  error : Option String
  recommendations : List Recommendation
deriving DecidableEq

/-- The `get_recommendations` endpoint of `app.py` lines 169-198, as a
function of the loaded state and of the `movie` field of the request body
(`none` models an absent field; Python's `if not selected_movie` also
treats the empty string as unset). -/
def get_recommendations (movies_tag : List CatalogEntry)
    (similarity : List (List Score)) (poster_api : Int → NetResult)
    (body_movie : Option String) : ApiResponse :=
  if movies_tag.isEmpty || matrix_size similarity == 0 then
    ⟨false,
      some "Movie recommendation system is not ready. Please try again later.",
      []⟩
  else
    match body_movie with
    | none => ⟨false, some "No movie selected", []⟩
    | some selected_movie =>
        if selected_movie = "" then ⟨false, some "No movie selected", []⟩
        else
          let recommendations :=
            recommend movies_tag similarity poster_api selected_movie 6
          if recommendations.isEmpty then
            ⟨false,
              some ("No recommendations found for \"" ++ selected_movie ++
                "\". Please try another movie."),
              []⟩
          else ⟨true, none, recommendations⟩

/-- JSON payload shape of the `/health` endpoint. -/
structure HealthStatus where
  status : String
  models_loaded : Bool
  movies_count : Nat
  similarity_shape : String
deriving DecidableEq

/-- The `health_check` endpoint of `app.py` lines 200-209. -/
def health_check (movies_tag : List CatalogEntry)
    (similarity : List (List Score)) : HealthStatus :=
  ⟨"healthy",
    (!movies_tag.isEmpty) && (decide (0 < matrix_size similarity)),
    movies_tag.length,
    if 0 < matrix_size similarity then
      "(" ++ toString similarity.length ++ ", " ++
        toString ((similarity.getD 0 []).length) ++ ")"
    else "Not loaded"⟩

/-- The concrete three-movie catalog of the specification scenario. -/
def demo_catalog : List CatalogEntry := [⟨"A", 1⟩, ⟨"B", 2⟩, ⟨"C", 3⟩]

/-- A symmetric similarity matrix whose row for position 1 (title "B") is
`[0.2, 1.0, 0.9]`, as in the specification scenario. -/
def demo_similarity : List (List Score) :=
  [[1, 2/10, 4/10], [2/10, 1, 9/10], [4/10, 9/10, 1]]

/-!
Properties of the stable descending sort.

Python's `sorted` is stable; `List.insertionSort` reproduces this
(`orderedInsert` passes over all strictly greater elements and stops at
the first tied-or-smaller one, so an element inserted later, i.e. one
that stood earlier in the input, lands before its ties).  On a list whose
indices are strictly increasing — the shape `enumerate` produces — the
result is therefore sorted by the strict order `scoreDescIdxAsc`.
-/

lemma orderedInsert_pairwise (a : Nat × Score) (s : List (Nat × Score))
    (hs : s.Pairwise scoreDescIdxAsc) (ha : ∀ b ∈ s, a.1 < b.1) :
    (s.orderedInsert scoreDesc a).Pairwise scoreDescIdxAsc := by
  induction s with
  | nil => simp [scoreDescIdxAsc]
  | cons b t ih =>
    rw [List.orderedInsert]
    by_cases hab : scoreDesc a b
    · rw [if_pos hab]
      refine List.Pairwise.cons ?_ hs
      intro c hc
      have hcb : c.2 ≤ b.2 := by
        rcases List.mem_cons.mp hc with rfl | hct
        · exact le_refl _
        · rcases (List.pairwise_cons.mp hs).1 c hct with h | ⟨h, _⟩
          · exact le_of_lt h
          · exact le_of_eq h.symm
      have hca : c.2 ≤ a.2 := le_trans hcb hab
      rcases lt_or_eq_of_le hca with h | h
      · exact Or.inl h
      · exact Or.inr ⟨h.symm, ha c hc⟩
    · rw [if_neg hab]
      have hba : a.2 < b.2 := lt_of_not_le hab
      refine List.Pairwise.cons ?_
        (ih (List.pairwise_cons.mp hs).2
          (fun c hc => ha c (List.mem_cons_of_mem b hc)))
      intro c hc
      rcases (List.mem_orderedInsert _).mp hc with rfl | hct
      · exact Or.inl hba
      · exact (List.pairwise_cons.mp hs).1 c hct

lemma insertionSort_pairwise (l : List (Nat × Score))
    (hl : l.Pairwise (fun a b => a.1 < b.1)) :
    (l.insertionSort scoreDesc).Pairwise scoreDescIdxAsc := by
  induction l with
  | nil => simp
  | cons a t ih =>
    rw [List.insertionSort]
    apply orderedInsert_pairwise
    · exact ih (List.pairwise_cons.mp hl).2
    · intro b hb
      exact (List.pairwise_cons.mp hl).1 b
        ((List.mem_insertionSort _).mp hb)

lemma enum_pairwise_fst {α : Type} (l : List α) :
    l.enum.Pairwise (fun a b => a.1 < b.1) := by
  have h : (l.enum.map Prod.fst).Pairwise (· < ·) := by
    rw [List.enum_map_fst]
    exact List.pairwise_lt_range l.length
  exact List.pairwise_map.mp h

lemma top_k_sublist (similarity : List (List Score)) (position k : Nat) :
    List.Sublist (top_k similarity position k)
      ((similarity.getD position []).enum.insertionSort scoreDesc) := by
  unfold top_k
  exact (List.take_sublist _ _).trans (List.drop_sublist _ _)

lemma top_k_pairwise (similarity : List (List Score)) (position k : Nat) :
    (top_k similarity position k).Pairwise scoreDescIdxAsc :=
  List.Pairwise.sublist (top_k_sublist similarity position k)
    (insertionSort_pairwise _ (enum_pairwise_fst _))

lemma insertionSort_enum_nodup_fst (l : List Score) :
    ((l.enum.insertionSort scoreDesc).map Prod.fst).Nodup := by
  have hperm : List.Perm ((l.enum.insertionSort scoreDesc).map Prod.fst)
      (l.enum.map Prod.fst) :=
    (List.perm_insertionSort scoreDesc l.enum).map Prod.fst
  rw [List.enum_map_fst] at hperm
  exact hperm.nodup_iff.mpr (List.nodup_range _)

lemma top_k_nodup_fst (similarity : List (List Score)) (position k : Nat) :
    ((top_k similarity position k).map Prod.fst).Nodup :=
  ((insertionSort_enum_nodup_fst _).sublist
    (List.Sublist.map Prod.fst (top_k_sublist similarity position k)))

lemma process_item_isSome (movies_tag : List CatalogEntry)
    (poster_api : Int → NetResult) (x : Nat × Score)
    (hx : x.1 < movies_tag.length) :
    (process_item movies_tag poster_api x).isSome := by
  unfold process_item
  rw [List.get?_eq_getElem?, List.getElem?_eq_getElem hx]
  rfl

lemma length_filterMap_of_forall_isSome {α β : Type} (f : α → Option β) :
    ∀ l : List α, (∀ x ∈ l, (f x).isSome) →
      (l.filterMap f).length = l.length
  | [], _ => rfl
  | x :: t, h => by
    obtain ⟨y, hy⟩ := Option.isSome_iff_exists.mp
      (h x (List.mem_cons_self x t))
    rw [List.filterMap_cons, hy, List.length_cons, List.length_cons,
      length_filterMap_of_forall_isSome f t
        (fun z hz => h z (List.mem_cons_of_mem x hz))]

/-- Claim C1, as stated, is false: self-exclusion is realised by dropping
the first element of the descending sort, so when another entry ties the
self-similarity score the queried position can survive in the result.
Concretely, for the 2×2 all-ones matrix, position 1 and k = 1, the ranking
step returns the pair with index 1 — the queried position itself. -/
theorem top_k_self_exclusion_refuted :
    ¬ (∀ (similarity : List (List Score)) (position k : Nat),
        position < similarity.length →
        (∀ row ∈ similarity, row.length = similarity.length) →
        position ∉ (top_k similarity position k).map Prod.fst) := by
  intro h
  exact h [[1, 1], [1, 1]] 1 1 (by decide) (by decide) (by decide)

/-- Claim C1 (amended): for every N×N similarity matrix, every position
p < N and every k, IF the diagonal entry of row p is the unique maximum of
that row (strictly greater than every other entry), THEN p does not appear
among the indices returned by the ranking step of `recommend`. -/
theorem top_k_excludes_self_of_strict_max (similarity : List (List Score))
    (position k : Nat) (hp : position < similarity.length)
    (hsq : ∀ row ∈ similarity, row.length = similarity.length)
    (hmax : ∀ j < similarity.length, j ≠ position →
      (similarity.getD position []).getD j 0 <
        (similarity.getD position []).getD position 0) :
    position ∉ (top_k similarity position k).map Prod.fst := by
  intro hmem
  set row := similarity.getD position [] with hrowdef
  have hlen : row.length = similarity.length := by
    rw [hrowdef, List.getD_eq_getElem _ _ hp]
    exact hsq _ (List.getElem_mem hp)
  have hplen : position < row.length := by rw [hlen]; exact hp
  set s := row.enum.insertionSort scoreDesc with hsdef
  have hperm : List.Perm s row.enum := List.perm_insertionSort scoreDesc _
  have hpair : s.Pairwise scoreDescIdxAsc :=
    insertionSort_pairwise _ (enum_pairwise_fst _)
  have hnodup : (s.map Prod.fst).Nodup := insertionSort_enum_nodup_fst row
  have hselfmem : (position, row.get ⟨position, hplen⟩) ∈ s := by
    rw [hsdef, List.mem_insertionSort]
    exact List.mk_mem_enum_iff_getElem?.mpr (List.getElem?_eq_getElem hplen)
  obtain ⟨h0, t, hst⟩ : ∃ h0 t, s = h0 :: t := by
    cases hs : s with
    | nil => rw [hs] at hselfmem; cases hselfmem
    | cons h0 t => exact ⟨h0, t, rfl⟩
  have htopk : top_k similarity position k = t.take k := by
    show List.take k
      (List.drop 1 (List.insertionSort scoreDesc row.enum)) = List.take k t
    rw [← hsdef, hst]
    rfl
  rw [htopk] at hmem
  have hmemt : position ∈ t.map Prod.fst :=
    (List.Sublist.map Prod.fst (List.take_sublist k t)).subset hmem
  rw [hst, List.map_cons] at hnodup
  have hh0notin : h0.1 ∉ t.map Prod.fst := (List.nodup_cons.mp hnodup).1
  have hh0mem : h0 ∈ row.enum := hperm.subset (hst ▸ List.mem_cons_self h0 t)
  have hh0lt : h0.1 < row.length := List.fst_lt_of_mem_enum hh0mem
  by_cases hcase : h0.1 = position
  · rw [hcase] at hh0notin
    exact hh0notin hmemt
  · have hscore : row.get ⟨h0.1, hh0lt⟩ < row.get ⟨position, hplen⟩ := by
      have h2 := hmax h0.1 (hlen ▸ hh0lt) hcase
      rw [List.getD_eq_getElem _ _ hh0lt,
        List.getD_eq_getElem _ _ hplen] at h2
      rw [List.get_eq_getElem, List.get_eq_getElem]
      exact h2
    have hh0snd : h0.2 = row.get ⟨h0.1, hh0lt⟩ := List.snd_eq_of_mem_enum hh0mem
    have hselft : (position, row.get ⟨position, hplen⟩) ∈ t := by
      rcases List.mem_cons.mp (hst ▸ hselfmem) with h | h
      · exact absurd (congrArg Prod.fst h.symm) hcase
      · exact h
    have hrel : scoreDescIdxAsc h0 (position, row.get ⟨position, hplen⟩) :=
      (List.pairwise_cons.mp (hst ▸ hpair)).1 _ hselft
    rcases hrel with h | ⟨h, _⟩
    · exact absurd (hh0snd ▸ h) (not_lt_of_gt hscore)
    · exact absurd (hh0snd ▸ h) (ne_of_lt hscore)

/-- Claim C2: the (index, score) sequence returned by the ranking step of
`recommend` is sorted by score in descending order, and any two entries
with equal scores appear in ascending index order (Python's `sorted` is
stable, and the pairs enter it in ascending index order). -/
theorem top_k_sorted_desc (similarity : List (List Score)) (position k : Nat)
    (hp : position < similarity.length)
    (hsq : ∀ row ∈ similarity, row.length = similarity.length) :
    (top_k similarity position k).Pairwise
      (fun a b => b.2 ≤ a.2 ∧ (a.2 = b.2 → a.1 < b.1)) := by
  refine (top_k_pairwise similarity position k).imp ?_
  rintro a b (h | ⟨h1, h2⟩)
  · exact ⟨le_of_lt h, fun he => absurd h (by rw [he]; exact lt_irrefl _)⟩
  · exact ⟨le_of_eq h1.symm, fun _ => h2⟩

/-- Witness for C2 at a concrete 2×2 matrix. -/
theorem top_k_sorted_desc_witness :
    (top_k [[3, 1], [1, 3]] 0 2).Pairwise
      (fun a b => b.2 ≤ a.2 ∧ (a.2 = b.2 → a.1 < b.1)) :=
  top_k_sorted_desc [[3, 1], [1, 3]] 0 2 (by decide) (by decide)

/-- Witness for C1 (amended) at a concrete 3×3 matrix with a strictly
maximal diagonal. -/
theorem top_k_excludes_self_witness :
    1 ∉ (top_k [[3, 1, 2], [1, 3, 2], [2, 1, 3]] 1 2).map Prod.fst :=
  top_k_excludes_self_of_strict_max [[3, 1, 2], [1, 3, 2], [2, 1, 3]] 1 2
    (by decide) (by decide) (by decide)

/-- Claim C3: the ranking step returns `min k (N-1)` pairs — hence at most
`k`, and exactly `N-1` whenever `N-1 < k` (it never pads) — and the
returned indices are pairwise distinct. -/
theorem top_k_length_distinct (similarity : List (List Score))
    (position k : Nat) (hp : position < similarity.length)
    (hsq : ∀ row ∈ similarity, row.length = similarity.length) :
    (top_k similarity position k).length = min k (similarity.length - 1) ∧
    (top_k similarity position k).length ≤ k ∧
    (similarity.length - 1 < k →
      (top_k similarity position k).length = similarity.length - 1) ∧
    ((top_k similarity position k).map Prod.fst).Nodup := by
  have hlen : (similarity.getD position []).length = similarity.length := by
    rw [List.getD_eq_getElem _ _ hp]
    exact hsq _ (List.getElem_mem hp)
  have hslen :
      ((similarity.getD position []).enum.insertionSort scoreDesc).length
        = similarity.length := by
    rw [(List.perm_insertionSort scoreDesc _).length_eq, List.enum_length,
      hlen]
  have hmain : (top_k similarity position k).length
      = min k (similarity.length - 1) := by
    unfold top_k
    rw [List.length_take, List.length_drop, hslen]
  refine ⟨hmain, ?_, ?_, top_k_nodup_fst _ _ _⟩
  · rw [hmain]; exact min_le_left _ _
  · intro h; rw [hmain]; exact min_eq_right (le_of_lt h)

/-- Witness for C3: a 3×3 matrix with k = 5 > N-1 = 2. -/
theorem top_k_length_distinct_witness :
    (top_k [[3, 1, 2], [1, 3, 2], [2, 1, 3]] 0 5).length = min 5 2 ∧
    (top_k [[3, 1, 2], [1, 3, 2], [2, 1, 3]] 0 5).length ≤ 5 ∧
    (2 < 5 → (top_k [[3, 1, 2], [1, 3, 2], [2, 1, 3]] 0 5).length = 2) ∧
    ((top_k [[3, 1, 2], [1, 3, 2], [2, 1, 3]] 0 5).map Prod.fst).Nodup :=
  top_k_length_distinct [[3, 1, 2], [1, 3, 2], [2, 1, 3]] 0 5
    (by decide) (by decide)

/-- Claim C4: on the specification's concrete scenario — the three-title
catalog and a matrix whose row for "B" (position 1) is [0.2, 1.0, 0.9] —
the title "B" resolves to position 1 and the ranking step with k = 1
returns exactly [(2, 0.9)], the self entry at index 1 being excluded. -/
theorem top_k_demo_scenario :
    find_position demo_catalog "B" = some 1 ∧
    top_k demo_similarity 1 1 = [(2, 9/10)] := by
  constructor
  · decide
  · norm_num [top_k, demo_similarity, scoreDesc]

/-- Claim C5, as stated, is false for the Streamlit entry point it also
cites (`application.py` lines 23-26): that `recommend` has no empty-match
guard, so on a title matching no entry, `.index[0]` raises `IndexError`
to the caller — modelled by `none` — instead of returning an empty
sequence.  Concretely, the demo catalog holds no title "Unknown Movie"
and the selection step signals the raise. -/
theorem recommend_streamlit_unknown_title_refuted :
    recommend_streamlit_pairs demo_catalog demo_similarity
      "Unknown Movie" 5 = none ∧
    ¬ (∀ (movies_tag : List CatalogEntry)
        (similarity : List (List Score)) (movie : String) (k : Nat),
        (∀ e ∈ movies_tag, e.title ≠ movie) →
        recommend_streamlit_pairs movies_tag similarity movie k ≠ none) := by
  constructor
  · rfl
  · intro h
    exact h demo_catalog demo_similarity "Unknown Movie" 5 (by decide) rfl

/-- Claim C5 (amended): for every loaded catalog and similarity matrix
and every title that matches no entry exactly, the Flask entry point's
`recommend` (`app.py`) returns the empty list.  That embedding is a total
function, so no exception reaches the caller. -/
theorem recommend_unknown_title (movies_tag : List CatalogEntry)
    (similarity : List (List Score)) (poster_api : Int → NetResult)
    (movie : String) (k : Nat)
    (hmovie : ∀ e ∈ movies_tag, e.title ≠ movie) :
    recommend movies_tag similarity poster_api movie k = [] := by
  unfold recommend
  split
  · rfl
  · have hfil : (movies_tag.enum.filter fun pe => pe.2.title == movie)
        = [] := by
      rw [List.filter_eq_nil_iff]
      intro pe hpe
      simpa using hmovie pe.2 (List.snd_mem_of_mem_enum hpe)
    have hfp : find_position movies_tag movie = none := by
      unfold find_position
      rw [hfil]
      rfl
    rw [hfp]

/-- Witness for C5: the demo catalog holds no title "Z". -/
theorem recommend_unknown_title_witness :
    recommend demo_catalog demo_similarity (fun _ => NetResult.err) "Z" 6
      = [] :=
  recommend_unknown_title demo_catalog demo_similarity
    (fun _ => NetResult.err) "Z" 6 (by decide)

/-- Claim C6, as stated, is false for the Streamlit entry point it also
cites (`application.py` lines 6-10): that `fetch_poster` returns `None`
— not a placeholder string — when `poster_path` is absent, and
propagates network errors to the caller instead of catching them. -/
theorem fetch_poster_streamlit_refuted :
    fetch_poster_streamlit (NetResult.ok none) = Except.ok none ∧
    fetch_poster_streamlit NetResult.err = Except.error () ∧
    ¬ (∀ response : NetResult, ∃ s : String,
        fetch_poster_streamlit response = Except.ok (some s)) := by
  refine ⟨rfl, rfl, ?_⟩
  intro h
  obtain ⟨s, hs⟩ := h (NetResult.ok none)
  simp [fetch_poster_streamlit] at hs

/-- Claim C6 (amended): `fetch_poster` of the Flask entry point
(`app.py`) always returns a string — the fixed placeholder URL on any
failed lookup (network error, timeout, non-success status, malformed
body) and on an absent or empty `poster_path`, and the image-host prefix
concatenated with `poster_path` on success. -/
theorem fetch_poster_always_string (response : NetResult) :
    fetch_poster NetResult.err = placeholder_url ∧
    fetch_poster (NetResult.ok none) = placeholder_url ∧
    fetch_poster (NetResult.ok (some "")) = placeholder_url ∧
    (fetch_poster response = placeholder_url ∨
      ∃ p, ¬ p = "" ∧ response = NetResult.ok (some p) ∧
        fetch_poster response = image_host ++ p) := by
  refine ⟨rfl, rfl, by simp [fetch_poster], ?_⟩
  match response with
  | NetResult.err => exact Or.inl rfl
  | NetResult.ok none => exact Or.inl rfl
  | NetResult.ok (some p) =>
    by_cases hp : p = ""
    · subst hp
      exact Or.inl (by simp [fetch_poster])
    · exact Or.inr ⟨p, hp, rfl, by simp [fetch_poster, hp]⟩

/-- Claim C7: during recommendation assembly, a single failing candidate
(here: an index outside the catalog, on which `movies_tag.iloc` raises
and the per-item guard fires) is dropped alone — the output equals the
assembly of the remaining candidates, its length is one less than the
candidate count, and every remaining candidate is still processed. -/
theorem assembly_drops_failing_item_only (movies_tag : List CatalogEntry)
    (poster_api : Int → NetResult) (l1 l2 : List (Nat × Score))
    (bad : Nat × Score) (hbad : movies_tag.length ≤ bad.1)
    (hgood : ∀ x ∈ l1 ++ l2, x.1 < movies_tag.length) :
    ((l1 ++ bad :: l2).filterMap (process_item movies_tag poster_api)) =
      ((l1 ++ l2).filterMap (process_item movies_tag poster_api)) ∧
    ((l1 ++ bad :: l2).filterMap
        (process_item movies_tag poster_api)).length =
      (l1 ++ bad :: l2).length - 1 ∧
    ((l1 ++ l2).filterMap (process_item movies_tag poster_api)).length =
      (l1 ++ l2).length := by
  have hbadnone : process_item movies_tag poster_api bad = none := by
    unfold process_item
    rw [List.get?_eq_none.mpr hbad]
  have hgood1 : ∀ x ∈ l1,
      (process_item movies_tag poster_api x).isSome := fun x hx =>
    process_item_isSome movies_tag poster_api x
      (hgood x (List.mem_append_left l2 hx))
  have hgood2 : ∀ x ∈ l2,
      (process_item movies_tag poster_api x).isSome := fun x hx =>
    process_item_isSome movies_tag poster_api x
      (hgood x (List.mem_append_right l1 hx))
  have heq : (l1 ++ bad :: l2).filterMap
      (process_item movies_tag poster_api) =
      (l1 ++ l2).filterMap (process_item movies_tag poster_api) := by
    rw [List.filterMap_append, List.filterMap_append,
      List.filterMap_cons, hbadnone]
  have hlen1 := length_filterMap_of_forall_isSome
    (process_item movies_tag poster_api) l1 hgood1
  have hlen2 := length_filterMap_of_forall_isSome
    (process_item movies_tag poster_api) l2 hgood2
  refine ⟨heq, ?_, ?_⟩
  · rw [heq, List.filterMap_append, List.length_append, hlen1, hlen2,
      List.length_append]
    simp only [List.length_cons]
    omega
  · rw [List.filterMap_append, List.length_append, hlen1, hlen2,
      List.length_append]

/-- Witness for C7: candidate index 5 is outside the three-entry demo
catalog; the two valid candidates survive. -/
theorem assembly_drops_failing_item_only_witness :
    (([(0, (3 : Score))] ++ (5, (2 : Score)) :: [(2, (1 : Score))]).filterMap
        (process_item demo_catalog (fun _ => NetResult.err))) =
      (([(0, (3 : Score))] ++ [(2, (1 : Score))]).filterMap
        (process_item demo_catalog (fun _ => NetResult.err))) ∧
    (([(0, (3 : Score))] ++ (5, (2 : Score)) :: [(2, (1 : Score))]).filterMap
        (process_item demo_catalog (fun _ => NetResult.err))).length =
      ([(0, (3 : Score))] ++ (5, (2 : Score)) :: [(2, (1 : Score))]).length
        - 1 ∧
    (([(0, (3 : Score))] ++ [(2, (1 : Score))]).filterMap
        (process_item demo_catalog (fun _ => NetResult.err))).length =
      ([(0, (3 : Score))] ++ [(2, (1 : Score))]).length :=
  assembly_drops_failing_item_only demo_catalog (fun _ => NetResult.err)
    [(0, 3)] [(2, 1)] (5, 2) (by decide) (by decide)

/-- Claim C8: whenever the models are not loaded (empty catalog or
size-zero similarity matrix), `get_recommendations` answers every request
body with `success = false` and an error message, and `health_check`
reports `models_loaded = false`; both are total functions, so no uncaught
fault is raised. -/
theorem degraded_state_behaviour (movies_tag : List CatalogEntry)
    (similarity : List (List Score)) (poster_api : Int → NetResult)
    (hdeg : movies_tag = [] ∨ matrix_size similarity = 0) :
    (∀ body_movie,
      (get_recommendations movies_tag similarity poster_api
        body_movie).success = false ∧
      ((get_recommendations movies_tag similarity poster_api
        body_movie).error).isSome = true) ∧
    (health_check movies_tag similarity).models_loaded = false := by
  have hcond : (movies_tag.isEmpty || matrix_size similarity == 0)
      = true := by
    rcases hdeg with h | h
    · subst h; rfl
    · simp [h]
  refine ⟨?_, ?_⟩
  · intro body_movie
    unfold get_recommendations
    simp only [hcond]
    exact ⟨rfl, rfl⟩
  · unfold health_check
    rcases hdeg with h | h
    · subst h; rfl
    · simp [h]

/-- Witness for C8: no artifacts at all. -/
theorem degraded_state_behaviour_witness :
    (∀ body_movie,
      (get_recommendations [] [] (fun _ => NetResult.err)
        body_movie).success = false ∧
      ((get_recommendations [] [] (fun _ => NetResult.err)
        body_movie).error).isSome = true) ∧
    (health_check [] []).models_loaded = false :=
  degraded_state_behaviour [] [] (fun _ => NetResult.err) (Or.inl rfl)

/-- If some entry's title matches, `find_position` returns the position of
the first (lowest-index) matching entry. -/
lemma find_position_first_of_match (movies_tag : List CatalogEntry)
    (movie : String) (n : Nat) (e : CatalogEntry)
    (hn : movies_tag.get? n = some e) (ht : e.title = movie) :
    ∃ pos e2, find_position movies_tag movie = some pos ∧
      movies_tag.get? pos = some e2 ∧ e2.title = movie ∧
      ∀ m e3, movies_tag.get? m = some e3 → e3.title = movie → pos ≤ m := by
  have henum : ∀ (m : Nat) (c : CatalogEntry), movies_tag.get? m = some c →
      c.title = movie →
      (m, c) ∈ (movies_tag.enum.filter fun pe => pe.2.title == movie) := by
    intro m c hm hc
    refine List.mem_filter.mpr ⟨?_, by simpa using hc⟩
    refine List.mk_mem_enum_iff_getElem?.mpr ?_
    rw [← List.get?_eq_getElem?]
    exact hm
  have hinfil := henum n e hn ht
  obtain ⟨hd, tl, hfe⟩ : ∃ hd tl,
      (movies_tag.enum.filter fun pe => pe.2.title == movie)
        = hd :: tl := by
    cases hf : (movies_tag.enum.filter fun pe => pe.2.title == movie) with
    | nil => rw [hf] at hinfil; cases hinfil
    | cons hd tl => exact ⟨hd, tl, rfl⟩
  have hpairfil : (movies_tag.enum.filter fun pe =>
      pe.2.title == movie).Pairwise (fun a b => a.1 < b.1) :=
    (enum_pairwise_fst movies_tag).filter _
  have hhdfil : hd ∈ (movies_tag.enum.filter fun pe =>
      pe.2.title == movie) := by
    rw [hfe]
    exact List.mem_cons_self hd tl
  have hhdenum : hd ∈ movies_tag.enum := (List.mem_filter.mp hhdfil).1
  have hhdtitle : hd.2.title = movie := by
    have := (List.mem_filter.mp hhdfil).2
    simpa using this
  have hhdget : movies_tag.get? hd.1 = some hd.2 := by
    rw [List.get?_eq_getElem?]
    exact List.mem_enum_iff_getElem?.mp hhdenum
  refine ⟨hd.1, hd.2, ?_, hhdget, hhdtitle, ?_⟩
  · unfold find_position
    rw [hfe]
    rfl
  · intro m e3 hm hte3
    have hmfil := henum m e3 hm hte3
    rw [hfe] at hmfil
    rcases List.mem_cons.mp hmfil with h | h
    · rw [← h]
    · rw [hfe] at hpairfil
      exact le_of_lt ((List.pairwise_cons.mp hpairfil).1 _ h)

/-- Claim C9: on a catalog holding two or more entries with the queried
title, the title-resolution step of `recommend` returns the lowest
matching position; being a pure function of catalog and title, repeated
calls return the same position. -/
theorem find_position_lowest_duplicate (movies_tag : List CatalogEntry)
    (movie : String) (i j : Nat) (ei ej : CatalogEntry) (hij : i ≠ j)
    (hi : movies_tag.get? i = some ei) (hti : ei.title = movie)
    (hj : movies_tag.get? j = some ej) (htj : ej.title = movie) :
    ∃ pos e2, find_position movies_tag movie = some pos ∧
      movies_tag.get? pos = some e2 ∧ e2.title = movie ∧
      ∀ m e3, movies_tag.get? m = some e3 → e3.title = movie → pos ≤ m :=
  find_position_first_of_match movies_tag movie i ei hi hti

/-- Witness for C9: a catalog where the title "B" occurs at positions 1
and 2; resolution picks position 1. -/
theorem find_position_lowest_duplicate_witness :
    ∃ pos e2,
      find_position [⟨"X", 1⟩, ⟨"B", 2⟩, ⟨"B", 3⟩] "B" = some pos ∧
      ([⟨"X", 1⟩, ⟨"B", 2⟩, ⟨"B", 3⟩] :
        List CatalogEntry).get? pos = some e2 ∧ e2.title = "B" ∧
      ∀ m e3, ([⟨"X", 1⟩, ⟨"B", 2⟩, ⟨"B", 3⟩] :
          List CatalogEntry).get? m = some e3 →
        e3.title = "B" → pos ≤ m :=
  find_position_lowest_duplicate [⟨"X", 1⟩, ⟨"B", 2⟩, ⟨"B", 3⟩] "B"
    1 2 ⟨"B", 2⟩ ⟨"B", 3⟩ (by decide) rfl rfl rfl rfl

/-- Claim C10: on any well-formed shared state (square matrix of the
catalog's dimension) and any title present in the catalog, the Flask
entry point and the Streamlit entry point select exactly the same
ordered (index, score) candidate sequence for the same k. -/
theorem entry_points_same_selection (movies_tag : List CatalogEntry)
    (similarity : List (List Score)) (movie : String) (k : Nat)
    (hdim : similarity.length = movies_tag.length)
    (hsq : ∀ row ∈ similarity, row.length = movies_tag.length)
    (hmovie : ∃ e ∈ movies_tag, e.title = movie) :
    recommend_streamlit_pairs movies_tag similarity movie k =
      some (recommend_app_pairs movies_tag similarity movie k) := by
  obtain ⟨e, he, hte⟩ := hmovie
  obtain ⟨n, hlt, hne⟩ := List.getElem_of_mem he
  obtain ⟨pos, e2, hfp, _, _, _⟩ :=
    find_position_first_of_match movies_tag movie n e
      (by rw [List.get?_eq_getElem?, List.getElem?_eq_getElem hlt, hne]) hte
  have hne2 : movies_tag ≠ [] := List.ne_nil_of_mem he
  have hempty : movies_tag.isEmpty = false := by
    simpa [List.isEmpty_iff] using hne2
  have hpos : 0 < movies_tag.length := List.length_pos.mpr hne2
  have hms : 0 < matrix_size similarity := by
    cases hsim : similarity with
    | nil => rw [hsim] at hdim; simp at hdim; omega
    | cons r rest =>
      have hr : r.length = movies_tag.length := by
        apply hsq
        rw [hsim]
        exact List.mem_cons_self r rest
      unfold matrix_size
      simp only [List.map_cons, List.sum_cons]
      omega
  have hcond : (movies_tag.isEmpty || matrix_size similarity == 0)
      = false := by
    rw [hempty]
    simp
    omega
  unfold recommend_streamlit_pairs recommend_app_pairs
  rw [hfp, hcond]
  simp [hfp]

/-- Witness for C10 on the demo catalog and matrix. -/
theorem entry_points_same_selection_witness :
    recommend_streamlit_pairs demo_catalog demo_similarity "B" 5 =
      some (recommend_app_pairs demo_catalog demo_similarity "B" 5) :=
  entry_points_same_selection demo_catalog demo_similarity "B" 5
    (by decide) (by decide) ⟨⟨"B", 2⟩, by decide, rfl⟩

end MovieRec
